import Mathlib

/-!
# Verification of the simple-nhl ingestion/caching pipeline

Shallow embedding of the core of the `simple-nhl` repository
(`cache.py`, `scraper_tools.py`, `shared_types.py`, `game_data.py`) and
proofs of the specified properties.

Conventions of the embedding:
* Python values that may be `None` are modelled as `Option α`; a Python
  value known to be non-`None` is modelled directly.
* Python exceptions are modelled with `Option`/`Except`: a function that
  may raise returns `none` / `.error e` at the raising input.
* The file system used by the cache is modelled as a map from file name
  to stored value (`none` = file absent); `pickle` round-tripping is
  modelled as the identity on the stored value.
* Python machine arithmetic on the small integers involved here is exact,
  so `Nat`/`Int` are used directly.
-/

namespace SimpleNhl

/-! ## shared_types.py : basic value types -/

/-- `Team = str` (team code). -/
abbrev Team := String

/-- `Date = int` (YYYYMMDD). -/
abbrev Date := Int

/-- `shared_types.Game`: away/home team codes plus an optional date. -/
structure Game where
  away : Team
  home : Team
  date : Option Date := none
deriving DecidableEq, Repr

/-- `str(game)` = `f"{self.date}-{self.away}-{self.home}"`.  Python renders a
`None` date as the text `None`. -/
def Game.str (g : Game) : String :=
  (match g.date with
   | some d => toString d
   | none => "None") ++ "-" ++ g.away ++ "-" ++ g.home

/-- `shared_types.HockeyTime`: period number and seconds since period start. -/
structure HockeyTime where
  period : Int
  secs : Int
deriving DecidableEq, Repr

/-- Python `int(s)` on a string: optional sign followed by at least one
decimal digit.  (Surrounding whitespace and `_` separators, which Python also
accepts, never occur in the clock strings handled here and are not modelled.)
Returns `none` where Python raises `ValueError`. -/
def pyInt (s : String) : Option Int :=
  let digits (l : List Char) : Option Nat :=
    if l = [] then none
    else l.foldlM (fun acc c => if c.isDigit then some (acc * 10 + (c.toNat - 48)) else none) 0
  match s.toList with
  | '-' :: rest => (digits rest).map (fun n => -(n : Int))
  | '+' :: rest => (digits rest).map (fun n => (n : Int))
  | l => (digits l).map (fun n => (n : Int))

/-- Python `s.split(sep)` for a one-character separator, on the character
list: splitting the empty string gives `[""]`, and each separator occurrence
starts a new (possibly empty) part. -/
def splitOnChar (sep : Char) : List Char → List (List Char)
  | [] => [[]]
  | c :: rest =>
      match splitOnChar sep rest with
      | h :: t => if c = sep then [] :: h :: t else (c :: h) :: t
      | [] => [[]]

/-- Python `s.split(sep)` for a one-character separator. -/
def pySplit (s : String) (sep : Char) : List String :=
  (splitOnChar sep s.toList).map String.mk

/-- `HockeyTime.from_str`: parse a clock string.
`clock_time.split(":")` with exactly two parts is the `MM:SS` form
(the two-name unpacking raises for any other number of parts, which the
`try` catches); otherwise `clock_time.split(".")` with exactly two parts is
the `SS.fraction` form with `minu = 0`.  The `int(...)` conversions happen
outside the `try`, so a non-numeric field raises (modelled as `none`), as
does a string that fits neither form. -/
def HockeyTime.from_str (period : Int) (clock_time : String) : Option HockeyTime :=
  match pySplit clock_time ':' with
  | [minu, sec] => do
      let m ← pyInt minu
      let s ← pyInt sec
      some ⟨period, m * 60 + s⟩
  | _ =>
      match pySplit clock_time '.' with
      | [sec, _frac] => do
          let s ← pyInt sec
          some ⟨period, 0 * 60 + s⟩
      | _ => none

/-- `shared_types.Play.Type`. -/
inductive PlayType where
  | end_of_period
  | goal
  | face_off
  | shot
deriving DecidableEq, Repr

/-- `shared_types.Play`: one play-by-play event.  `team` is `None` for
end-of-period events. -/
structure Play where
  game : Game
  hockey_time : HockeyTime
  type : PlayType
  team : Option Team := none
deriving DecidableEq, Repr

/-! ## cache.py : persistent cache and memoization -/

/-- The file system seen by the cache: file name ↦ stored (pickled) value,
`none` when the file does not exist.  The stored value is itself an
`Option α` because Python can pickle `None`. -/
def Store (α : Type) := String → Option (Option α)

/-- `key.replace("/", "")`: for a one-character pattern and empty
replacement this removes every `/` character. -/
def stripSlashes (key : String) : String :=
  String.mk (key.toList.filter (fun c => c ≠ '/'))

/-- `cache._transform_key`: `os.path.join(DATA_DIR, key.replace("/", "") + ".data")`.
`DATA_DIR` comes from configuration (`constants.py`), so it is a parameter;
`os.path.join` of a directory and a relative name inserts one separator. -/
def transform_key (dataDir : String) (key : String) : String :=
  dataDir ++ "/" ++ stripSlashes key ++ ".data"

/-- `BasicCacher.try_to_read`: if the file for the key exists, unpickle and
return its contents (possibly `None`); otherwise fall through, returning
`None`. -/
def try_to_read (dataDir : String) (store : Store α) (key : String) : Option α :=
  match store (transform_key dataDir key) with
  | some v => v
  | none => none

/-- `BasicCacher.write`: (re)write the file for the key with the pickled
value. -/
def write (dataDir : String) (store : Store α) (key : String) (value : Option α) : Store α :=
  fun f => if f = transform_key dataDir key then some value else store f

/-- A `cache.Cacher` strategy over a cache-state type `σ`: the two methods of
the abstract class.  Reading does not change the state; writing returns the
new state. -/
structure Cacher (σ : Type) (α : Type) where
  try_to_read : σ → String → Option α
  write : σ → String → Option α → σ

/-- `cache.BasicCacher` as a `Cacher` over the file-system state. -/
def BasicCacher (dataDir : String) : Cacher (Store α) α where
  try_to_read := try_to_read dataDir
  write := write dataDir

/-- `cache.NoCacher`: always misses, discards writes. -/
def NoCacher : Cacher Unit α where
  try_to_read := fun _ _ => none
  write := fun s _ _ => s

/-- `cache.memoize key cacher` applied to a zero-argument function `func`.
Returns the call's result together with the cache state after the call and
the number of times `func` was invoked.  `cached_value is not None` guards
the hit path; on a miss the result is written and returned. -/
def memoize (key : String) (c : Cacher σ α) (s : σ) (func : Unit → Option α) :
    Option α × σ × Nat :=
  match c.try_to_read s key with
  | some v => (some v, s, 0)
  | none =>
      let result := func ()
      (result, c.write s key result, 1)

/-- `cache.memoize` around a function that may raise (as
`load_game_data_online` can): the exception propagates out of the wrapper
before `cacher.write` runs, so nothing is written on failure. -/
def memoizeExc (key : String) (c : Cacher σ α) (s : σ) (func : Unit → Except ε (Option α)) :
    Except ε (Option α) × σ × Nat :=
  match c.try_to_read s key with
  | some v => (.ok (some v), s, 0)
  | none =>
      match func () with
      | .ok result => (.ok result, c.write s key result, 1)
      | .error e => (.error e, s, 1)

/-! ## scraper_tools.py : retrying fetcher -/

/-- The jittered delay of the `retrying` library for
`wait_random_min = lo`, `wait_random_max = hi` (milliseconds): a uniform
draw from `[lo, hi]`, fed here by an abstract random stream value `r`. -/
def wait_random (lo hi : Nat) (r : Nat) : Nat :=
  lo + r % (hi - lo + 1)

/-- The retry loop of `@retrying.retry(wait_random_min=200,
wait_random_max=400, stop_max_attempt_number=3)`: run the attempt; on
success return its value; on failure, if no retries remain re-raise the
last underlying error, else sleep a jittered delay and try again.
`attempt` numbers the attempts from 1, `remaining` counts the retries still
allowed after this one, `rand` is the random stream.  Returns the outcome,
the number of attempts made, and the list of delays slept. -/
def retry_run (action : Nat → Except ε α) (rand : Nat → Nat)
    (attempt : Nat) (remaining : Nat) : Except ε α × Nat × List Nat :=
  match action attempt, remaining with
  | .ok a, _ => (.ok a, 1, [])
  | .error e, 0 => (.error e, 1, [])
  | .error _, r + 1 =>
      let d := wait_random 200 400 (rand attempt)
      let (res, cnt, ds) := retry_run action rand (attempt + 1) r
      (res, cnt + 1, d :: ds)

/-- `scraper_tools.read_url_to_string`: the helper is retried with
`stop_max_attempt_number = 3`, i.e. a first attempt plus at most 2 retries.
The page read itself (selenium navigation + settle delay + `page_source`)
is the abstract `action`; attempt `i` yields either the page body or the
underlying error of that attempt. -/
def read_url_to_string (action : Nat → Except ε α) (rand : Nat → Nat) :
    Except ε α × Nat × List Nat :=
  retry_run action rand 1 2

/-! ## game_data.py : play-by-play scan and period remap

A parsed page is abstracted as the list of its play-by-play rows, each row
being the list of `span` texts of one `li` element, in document order
(the concatenation over all matching tables). -/

/-- Substring test on lists (needle occurs contiguously in hay). -/
def isSubList (needle hay : List Char) : Bool :=
  match hay with
  | [] => needle.isEmpty
  | _ :: t => needle.isPrefixOf hay || isSubList needle t

/-- Python `hay.find(needle) != -1`: substring containment. -/
def strContains (hay needle : String) : Bool :=
  isSubList needle.toList hay.toList

/-- Python `s.lower()` restricted to ASCII, which is all the source's
markup contains: map `A`–`Z` to `a`–`z`. -/
def pyLower (s : String) : String :=
  String.mk (s.toList.map (fun c => if 'A' ≤ c ∧ c ≤ 'Z' then Char.ofNat (c.toNat + 32) else c))

/-- Classification of a row's description cell (`row[4]`), in source order:
case-sensitive `"GOAL"`, then case-insensitive `"faceoff"`, then
case-insensitive `"shot"`; otherwise `this_play_type` stays `None`
(all `Play.Type` members are truthy, so an event is emitted exactly when
this returns `some`). -/
def classify (desc : String) : Option PlayType :=
  if strContains desc "GOAL" then some .goal
  else if strContains (pyLower desc) "faceoff" then some .face_off
  else if strContains (pyLower desc) "shot" then some .shot
  else none

/-- The loop state of the scan in `_load_game_data_online`:
`started_pbp`, the (non-positive, descending) period counter, and the
accumulated `result_pbp`. -/
structure ScanState where
  started : Bool
  period : Int
  result : List Play
deriving DecidableEq, Repr

/-- First stanza of the row loop of `_load_game_data_online`: the
end-of-period check (`row and row[-1] == "End of "`).  On a marker row,
decrement the period counter, set `started_pbp`, and append a synthetic
end-of-period event at clock `20:00` of the (negative) period; the clock
parse cannot raise on the literal `"20:00"`, but is called as in the
source. -/
def scanRowEop (game : Game) (st : ScanState) (row : List String) : Option ScanState :=
  if row.getLast? = some "End of " then
    match HockeyTime.from_str (st.period - 1) "20:00" with
    | some ht =>
        some { started := true, period := st.period - 1,
               result := st.result ++ [{ game := game, hockey_time := ht,
                                         type := .end_of_period, team := none }] }
    | none => none
  else some st

/-- Second stanza of the row loop: unless the scan has not started or the
row does not have exactly 5 cells (`continue`), parse the clock cell
`row[3]` (a raising parse aborts the whole scan: `none`), classify the
description cell `row[4]`, and append an event with team `row[2]` when the
classification matched. -/
def scanRowPlay (game : Game) (st1 : ScanState) (row : List String) : Option ScanState :=
  if ¬ st1.started ∨ row.length ≠ 5 then some st1
  else
    match HockeyTime.from_str st1.period (row.getD 3 "") with
    | none => none
    | some ht =>
        match classify (row.getD 4 "") with
        | some t =>
            some { st1 with result := st1.result ++
                     [{ game := game, hockey_time := ht, type := t,
                        team := some (row.getD 2 "") }] }
        | none => some st1

/-- One iteration of the row loop: both stanzas in sequence. -/
def scanRow (game : Game) (st : ScanState) (row : List String) : Option ScanState :=
  match scanRowEop game st row with
  | none => none
  | some st1 => scanRowPlay game st1 row

/-- The row loop from a given state: run `scanRow` over the remaining rows,
propagating an aborting parse. -/
def scanRowsFrom (game : Game) : ScanState → List (List String) → Option ScanState
  | st, [] => some st
  | st, row :: rest =>
      match scanRow game st row with
      | none => none
      | some st1 => scanRowsFrom game st1 rest

/-- The full row scan: all rows starting from `started_pbp = False`,
`period = 0`, `result_pbp = []`. -/
def scanRows (game : Game) (rows : List (List String)) : Option ScanState :=
  scanRowsFrom game ⟨false, 0, []⟩ rows

/-- Add `delta` to an event's period (the in-place
`play.hockey_time.period += delta`). -/
def bumpPeriod (delta : Int) (p : Play) : Play :=
  { p with hockey_time := { p.hockey_time with period := p.hockey_time.period + delta } }

/-- The remap loop of `_load_game_data_online`: walk `result_pbp` in
reverse, add `1 - period` to each event's period, and append to the output
list. -/
def remapLoop (finalPeriod : Int) (result_pbp : List Play) : List Play :=
  result_pbp.reverse.foldl (fun pbp play => pbp ++ [bumpPeriod (1 - finalPeriod) play]) []

/-- `_load_game_data_online` restricted to its parsing part: scan the rows,
then re-emit in reverse order with remapped periods.  `none` models the
uncaught exception of an unparseable clock string. -/
def parsePlayByPlay (game : Game) (rows : List (List String)) : Option (List Play) :=
  match scanRows game rows with
  | none => none
  | some st => some (remapLoop st.period st.result)

/-! ## shared_types.py : GameData and its derived statistics

The per-team tallies use a Python `dict` built as
`{self.game.away: 0, self.game.home: 0}` and bumped by
`result[play.team] += 1`; the dict is modelled as an association list whose
lookup and in-place increment act on the first matching key (for the two
initial keys this coincides with Python's dict semantics, also when
`away == home`, where the literal collapses to one entry).  A lookup of an
absent key is Python's `KeyError`, modelled as `none`. -/

/-- Dict lookup `d[k]` (first matching entry; `none` = `KeyError`). -/
def dictGet (d : List (Option Team × Nat)) (k : Option Team) : Option Nat :=
  match d with
  | [] => none
  | (k', v) :: rest => if k' = k then some v else dictGet rest k

/-- Dict update `d[k] += 1` (first matching entry; `none` = `KeyError`). -/
def dictIncr (d : List (Option Team × Nat)) (k : Option Team) :
    Option (List (Option Team × Nat)) :=
  match d with
  | [] => none
  | (k', v) :: rest =>
      if k' = k then some ((k', v + 1) :: rest)
      else (dictIncr rest k).map (fun rest' => (k', v) :: rest')

/-- The `for play in self.pbp` loop of `_count_plays_by_team`: bump the
entry of `play.team` for every play whose type belongs to `types`,
propagating a `KeyError`. -/
def countLoop (types : List PlayType) : List (Option Team × Nat) → List Play →
    Option (List (Option Team × Nat))
  | d, [] => some d
  | d, play :: rest =>
      match (if play.type ∈ types then dictIncr d play.team else some d) with
      | none => none
      | some d1 => countLoop types d1 rest

/-- `GameData._count_plays_by_team`: start from
`{away: 0, home: 0}` and run the counting loop. -/
def count_plays_by_team (game : Game) (pbp : List Play) (types : List PlayType) :
    Option (List (Option Team × Nat)) :=
  countLoop types [(some game.away, 0), (some game.home, 0)] pbp

/-- `shared_types.GameData` after `__init__`: the play-by-play plus the
derived values, which `__init__` computes eagerly via `_compute_atts` and
`_compute_scores` (`_winner` stays `None` on a tie, with `_tie = True`). -/
structure GameData where
  game : Game
  pbp : List Play
  away_att : Nat
  home_att : Nat
  away_score : Nat
  home_score : Nat
  winner : Option Team
  tie : Bool
deriving DecidableEq, Repr

/-- `GameData(game, pbp)`: construction with its eager `_compute_atts` /
`_compute_scores`; `none` models the `KeyError` raised when a counted
play's team is not a key of the per-team dict. -/
def GameData.init (game : Game) (pbp : List Play) : Option GameData := do
  let atts ← count_plays_by_team game pbp [.shot, .goal]
  let away_att ← dictGet atts (some game.away)
  let home_att ← dictGet atts (some game.home)
  let scores ← count_plays_by_team game pbp [.goal]
  let away_score ← dictGet scores (some game.away)
  let home_score ← dictGet scores (some game.home)
  some { game := game, pbp := pbp, away_att := away_att, home_att := home_att,
         away_score := away_score, home_score := home_score,
         winner :=
           if away_score < home_score then some game.home
           else if home_score < away_score then some game.away
           else none,
         tie :=
           if away_score < home_score then false
           else if home_score < away_score then false
           else true }

/-- The `winner` property: recomputation is skipped when `_winner` is set or
`_tie` holds, and `__init__` always leaves the record in that state, so the
accessor returns the stored `_winner` (possibly still `None`). -/
def GameData.winnerProp (gd : GameData) : Option Team :=
  gd.winner

/-! ## game_data.py : full per-game load pipeline -/

/-- The error taxonomy of the spec for the failures this embedding models. -/
inductive PyError where
  | malformedTime
  | keyError
deriving DecidableEq, Repr

/-- The body of `load_game_data`'s inner `load_game_data_online`, i.e.
`_load_game_data_online` with the fetched page abstracted to its row list:
parse the play-by-play and construct the `GameData`.  Both the clock-parse
failure and the construction `KeyError` propagate. -/
def load_game_data_online (game : Game) (rows : List (List String)) :
    Except PyError (Option GameData) :=
  match parsePlayByPlay game rows with
  | none => .error .malformedTime
  | some pbp =>
      match GameData.init game pbp with
      | none => .error .keyError
      | some gd => .ok (some gd)

/-- `load_game_data` for one game, with the network fetch abstracted to the
row list it would produce: the online loader memoized through
`BasicCacher` under the key `str(game)`.  Returns the outcome, the
file-system state after the call, and how often the online loader ran. -/
def load_game_data (dataDir : String) (game : Game) (rows : List (List String))
    (store : Store GameData) :
    Except PyError (Option GameData) × Store GameData × Nat :=
  memoizeExc (Game.str game) (BasicCacher dataDir) store
    (fun _ => load_game_data_online game rows)

/-! ## game_data.py / shared_types.py : dataset builder

`make_dataset` asserts `0 < test_portion < 1` and only then resolves the
season's games (network/cache I/O) and splits them.  The I/O is abstracted:
`getGames` consumes and transforms an I/O state `σ` (e.g. a fetch counter)
and yields the season's ordered game list.  `test_portion` is a Python
float (an IEEE-754 binary64 value), modelled by the exact rational value of
that double; the cutoff `int(len(games) * (1.0 - test_portion))` is
computed with the roundings the program's double arithmetic performs:
`1.0 - test_portion` is an exact difference rounded to the nearest double,
`len(games)` is converted to the nearest double, their product is rounded
again, and `int(...)` truncates toward zero.  All helpers below compute on
`Nat`/`Int` numerators and denominators (assembled with `mkRat`) so that
they evaluate inside the kernel; lemmas in the theorem section identify
them with the corresponding `ℚ` operations. -/

/-- Number of binary digits of `n` (0 for 0), by fueled halving.  The fuel
4096 covers every magnitude a binary64 value or the numbers handled here
can have (their numerators and denominators need at most 1076 bits). -/
def bitLenAux : Nat → Nat → Nat
  | 0, _ => 0
  | fuel + 1, n => if n = 0 then 0 else bitLenAux fuel (n / 2) + 1

/-- `bitLen n` is the bit length of `n`, so `2 ^ (bitLen n - 1) ≤ n < 2 ^ bitLen n`
for `n ≥ 1`. -/
def bitLen (n : Nat) : Nat := bitLenAux 4096 n

/-- `⌊log₂ (p/d)⌋` for `p, d ≥ 1`: the bit-length difference is the floor
log up to one, and a single comparison settles which. -/
def floorLog2 (p d : Nat) : Int :=
  let e0 : Int := (bitLen p : Int) - (bitLen d : Int)
  if 0 ≤ e0 then
    if d * 2 ^ e0.toNat ≤ p then e0 else e0 - 1
  else
    if d ≤ p * 2 ^ (-e0).toNat then e0 else e0 - 1

/-- Round a rational to the nearest IEEE-754 binary64 value (round to
nearest, ties to even): writing `2^e ≤ |q| < 2^(e+1)`, the significand
`|q| / 2^(e-52) ∈ [2^52, 2^53)` is rounded half-to-even to an integer `m`
and the result is `sign(q) · m · 2^(e-52)`.  The binary64 exponent field is
not clamped: values outside the normal range (below `2^(-1022)` or at and
above `2^1024`), which cannot arise from the fractions and list lengths
handled here, are rounded to the same 53-bit precision instead of going
subnormal or infinite. -/
def roundDouble (q : ℚ) : ℚ :=
  if q.num = 0 then 0
  else
    let p : Nat := q.num.natAbs
    let d : Nat := q.den
    let e : Int := floorLog2 p d
    let P : Nat := if 0 ≤ 52 - e then p * 2 ^ (52 - e).toNat else p
    let Q : Nat := if 0 ≤ 52 - e then d else d * 2 ^ (e - 52).toNat
    let m : Nat := P / Q
    let r2 : Nat := 2 * (P % Q)
    let m' : Nat := if r2 < Q then m else if Q < r2 then m + 1
                    else if m % 2 = 0 then m else m + 1
    if 0 ≤ 52 - e then
      mkRat (q.num.sign * m') (2 ^ (52 - e).toNat)
    else
      mkRat (q.num.sign * (m' * 2 ^ (e - 52).toNat)) 1

/-- The exact rational value of `1.0 - test_portion` (IEEE subtraction
computes the exact difference, then rounds); equals `1 - t`
(`oneMinus_eq`). -/
def oneMinus (t : ℚ) : ℚ := mkRat ((t.den : Int) - t.num) t.den

/-- The exact rational product of two rationals, assembled from numerators
and denominators; equals `x * y` (`exactMul_eq`). -/
def exactMul (x y : ℚ) : ℚ := mkRat (x.num * y.num) (x.den * y.den)

/-- Python `int()` on a float value: truncation toward zero; equals the
floor on the non-negative values it is applied to here
(`pyTrunc_eq_floor`). -/
def pyTrunc (q : ℚ) : Int := q.num.tdiv (q.den : Int)

/-- `cutoff = int(len(games) * (1.0 - test_portion))` exactly as the
program's binary64 arithmetic computes it: round `1.0 - t`, convert the
length to double, round the product, truncate.  `.toNat` is the identity
on the non-negative cutoffs the asserted domain produces. -/
def float_cutoff (n : Nat) (t : ℚ) : Nat :=
  (pyTrunc (roundDouble (exactMul (roundDouble (n : ℚ)) (roundDouble (oneMinus t))))).toNat

/-- `shared_types.TrainTest`. -/
structure TrainTest where
  train : List Game
  test : List Game
deriving DecidableEq, Repr

instance {ε α : Type} [DecidableEq ε] [DecidableEq α] : DecidableEq (Except ε α) := fun a b =>
  match a, b with
  | .error e, .error e' =>
      if h : e = e' then .isTrue (by rw [h]) else .isFalse (fun hc => by cases hc; exact h rfl)
  | .ok x, .ok y =>
      if h : x = y then .isTrue (by rw [h]) else .isFalse (fun hc => by cases hc; exact h rfl)
  | .error _, .ok _ => .isFalse (fun hc => by cases hc)
  | .ok _, .error _ => .isFalse (fun hc => by cases hc)

/-- `game_data.make_dataset`: assert the fraction, then fetch the game list
and split it at the double-arithmetic cutoff.  The `.error ()` models the
`AssertionError`; in that case `getGames` has not run, so the I/O state is
returned unchanged. -/
def make_dataset (getGames : σ → σ × List Game) (test_portion : ℚ) (s : σ) :
    σ × Except Unit TrainTest :=
  if 0 < test_portion ∧ test_portion < 1 then
    let (s', games) := getGames s
    let cutoff := float_cutoff games.length test_portion
    (s', .ok { train := games.take cutoff, test := games.drop cutoff })
  else
    (s, .error ())

/-- Specification-side counter: the number of plays in `pbp` whose type is
in `types` and whose team is `t`. -/
def countTeam (pbp : List Play) (types : List PlayType) (t : Option Team) : Nat :=
  (pbp.filter (fun p => decide (p.type ∈ types ∧ p.team = t))).length

/-- A concrete game used by witnesses: away team `A`, home team `B`. -/
def gEx : Game := ⟨"A", "B", some 1⟩

/-- The spec's concrete event list
`[Goal(team=A), Shot(team=A), Goal(team=B), FaceOff(team=B)]`. -/
def pbpEx : List Play :=
  [ ⟨gEx, ⟨1, 10⟩, .goal, some "A"⟩, ⟨gEx, ⟨1, 20⟩, .shot, some "A"⟩,
    ⟨gEx, ⟨2, 30⟩, .goal, some "B"⟩, ⟨gEx, ⟨2, 40⟩, .face_off, some "B"⟩ ]

/-- Concrete scanned rows used by witnesses: an end-of-period marker, one
5-cell shot row, and a second end-of-period marker. -/
def rowsEx : List (List String) :=
  [["End of "], ["a", "b", "TOR", "19:00", "Shot on goal"], ["End of "]]

/-- Concrete rows whose second row carries an unparseable clock cell. -/
def rowsBad : List (List String) :=
  [["End of "], ["a", "b", "TOR", "bad clock", "Shot on goal"]]

/-- Ten concrete games in order, used by the dataset-split witness. -/
def games10 : List Game :=
  (List.range 10).map (fun i => ⟨"A", "B", some (i : Int)⟩)

/-- A concrete game-list resolver over a fetch-counter state, used by the
dataset-split witness: bumps the counter and yields the ten games. -/
def getGames10 : Nat → Nat × List Game :=
  fun s => (s + 1, games10)

/-- Five concrete games in order, used by the dataset-split counterexample. -/
def games5 : List Game :=
  (List.range 5).map (fun i => ⟨"A", "B", some (i : Int)⟩)

/-- Resolver yielding the five games, bumping the fetch counter. -/
def getGames5 : Nat → Nat × List Game :=
  fun s => (s + 1, games5)

/-- The binary64 value nearest to the literal `0.2`
(`0.200000000000000011102230246251565404236316680908203125`). -/
def t02 : ℚ := mkRat 3602879701896397 (2 ^ 54)

/-- The binary64 value nearest to the literal `0.8`
(`0.8000000000000000444089209850062616169452667236328125`). -/
def t08 : ℚ := mkRat 3602879701896397 (2 ^ 52)

/-! # Theorems -/

/-! ## Helper lemmas -/

theorem foldl_append_singleton (f : α → β) (l : List α) (acc : List β) :
    l.foldl (fun r x => r ++ [f x]) acc = acc ++ l.map f := by
  induction l generalizing acc with
  | nil => simp
  | cons x xs ih => simp [List.foldl, ih]

theorem remapLoop_eq (P : Int) (l : List Play) :
    remapLoop P l = l.reverse.map (bumpPeriod (1 - P)) := by
  simpa [remapLoop] using foldl_append_singleton (bumpPeriod (1 - P)) l.reverse []

/-! ## C1 : memoization wrapper -/

/-- C1: for every cache strategy, cache state and key, the wrapper built by
`memoize`: on a non-`None` cached value `v` it returns `v`, leaves the cache
state untouched and never invokes the wrapped function (invocation count 0);
on a miss it invokes the wrapped function exactly once, writes the result
under the key and returns that result.  Likewise `load_game_data` on a cache
hit returns the cached record with the online loader never run. -/
theorem memoize_spec {σ α : Type} (c : Cacher σ α) (s : σ) (key : String)
    (func : Unit → Option α) :
    (∀ v, c.try_to_read s key = some v → memoize key c s func = (some v, s, 0)) ∧
    (c.try_to_read s key = none →
      memoize key c s func = (func (), c.write s key (func ()), 1)) ∧
    (∀ (dataDir : String) (game : Game) (rows : List (List String))
        (store : Store GameData) (gd : GameData),
      try_to_read dataDir store (Game.str game) = some gd →
      load_game_data dataDir game rows store = (.ok (some gd), store, 0)) := by
  refine ⟨fun v hv => ?_, fun hm => ?_, fun dataDir game rows store gd hgd => ?_⟩
  · simp [memoize, hv]
  · simp [memoize, hm]
  · simp [load_game_data, memoizeExc, BasicCacher, hgd]

/-- Witness for C1 at concrete inputs: a hit on key `k` stored as `7`
returns `7` without running the function, and a miss runs it once and
writes. -/
theorem memoize_spec_witness :
    (memoize "k" (BasicCacher "data") (write "data" (fun _ => none) "k" (some 7))
        (fun _ => some 99) = (some 7, write "data" (fun _ => none) "k" (some 7), 0)) ∧
    (memoize "k" (BasicCacher "data") (fun _ => (none : Option (Option Nat)))
        (fun _ => some 99) =
      (some 99, write "data" (fun _ => none) "k" (some 99), 1)) := by
  constructor
  · exact (memoize_spec (BasicCacher "data") (write "data" (fun _ => none) "k" (some 7))
      "k" (fun _ => some 99)).1 7 (by decide)
  · exact (memoize_spec (BasicCacher "data") (fun _ => none) "k" (fun _ => some 99)).2.1 rfl

/-! ## C5 : cache write/read round trip and file naming -/

/-- C5: writing `v` under key `k` and then reading `k` back (any number of
times — reading is a pure observation of the store) yields `v` unchanged;
the write touches exactly the file `transform_key dataDir k`, the read
depends only on that same file, and that name is the data directory joined
with the key stripped of path separators plus the `.data` suffix. -/
theorem cache_write_read_roundtrip {α : Type} (dataDir : String) (store : Store α)
    (k : String) (v : Option α) :
    try_to_read dataDir (write dataDir store k v) k = v ∧
    (write dataDir store k v) (transform_key dataDir k) = some v ∧
    (∀ f, f ≠ transform_key dataDir k → write dataDir store k v f = store f) ∧
    (∀ s₁ s₂ : Store α, s₁ (transform_key dataDir k) = s₂ (transform_key dataDir k) →
      try_to_read dataDir s₁ k = try_to_read dataDir s₂ k) ∧
    transform_key dataDir k = dataDir ++ "/" ++ stripSlashes k ++ ".data" := by
  refine ⟨?_, ?_, fun f hf => ?_, fun s₁ s₂ hs => ?_, rfl⟩
  · simp [try_to_read, write]
  · simp [write]
  · simp [write, hf]
  · simp [try_to_read, hs]

/-- Witness for C5 at a concrete store, key and value; the key's path
separator is stripped in the file name. -/
theorem cache_write_read_roundtrip_witness :
    try_to_read "data" (write "data" (fun _ => none) "k/ey" (some 7)) "k/ey" = some 7 ∧
    transform_key "data" "k/ey" = "data/key.data" := by
  refine ⟨(cache_write_read_roundtrip "data" (fun _ => none) "k/ey" (some 7)).1, ?_⟩
  have h := (cache_write_read_roundtrip "data" (fun _ => (none : Option (Option Nat)))
    "k/ey" (some 7)).2.2.2.2
  rw [h]
  decide

/-! ## C9 : a stored `None` is never an effective cache hit -/

/-- C9: when the wrapped function returns `None` on a miss, `memoize` (over
`BasicCacher`) writes `None` under the key and returns `None`, yet the file
now stores `None`, so every later call still observes a miss and invokes the
wrapped function again (invocation count 1 on each call). -/
theorem memoize_none_never_cached {α : Type} (dataDir : String) (store : Store α)
    (key : String) (func : Unit → Option α)
    (hmiss : try_to_read dataDir store key = none) (hnone : func () = none) :
    memoize key (BasicCacher dataDir) store func =
      (none, write dataDir store key none, 1) ∧
    (write dataDir store key none) (transform_key dataDir key) = some none ∧
    try_to_read dataDir (write dataDir store key none) key = none ∧
    (∀ func' : Unit → Option α,
      memoize key (BasicCacher dataDir) (write dataDir store key none) func' =
        (func' (), write dataDir (write dataDir store key none) key (func' ()), 1)) := by
  have hread : try_to_read dataDir (write dataDir store key none) key = none := by
    simp [try_to_read, write]
  refine ⟨?_, ?_, hread, fun func' => ?_⟩
  · simp [memoize, BasicCacher, hmiss, hnone]
  · simp [write]
  · simp [memoize, BasicCacher, hread]

/-- Witness for C9: concretely, after memoizing a `None`-returning function
the stored file holds `None` and the next call re-invokes the function. -/
theorem memoize_none_never_cached_witness :
    memoize "k" (BasicCacher "data") (fun _ => (none : Option (Option Nat)))
        (fun _ => (none : Option Nat)) =
      (none, write "data" (fun _ => none) "k" none, 1) ∧
    memoize "k" (BasicCacher "data")
        (write (α := Nat) "data" (fun _ => none) "k" none) (fun _ => none) =
      (none, write "data" (write (α := Nat) "data" (fun _ => none) "k" none) "k" none, 1) := by
  have h := memoize_none_never_cached (α := Nat) "data" (fun _ => none)
    "k" (fun _ => none) rfl rfl
  exact ⟨h.1, h.2.2.2 (fun _ => none)⟩

/-! ## C2 : retry exhaustion -/

/-- C2: for a page read that fails on every attempt, `read_url_to_string`
makes exactly 3 attempts, sleeps a jittered delay in `[200, 400]` ms between
consecutive attempts (so twice), and after the third failure propagates the
last underlying error — it never produces a normal return value. -/
theorem read_url_exhausts_after_three {ε α : Type} (errs : Nat → ε) (rand : Nat → Nat)
    (action : Nat → Except ε α) (hfail : ∀ i, action i = .error (errs i)) :
    read_url_to_string action rand =
      (.error (errs 3), 3,
        [wait_random 200 400 (rand 1), wait_random 200 400 (rand 2)]) ∧
    (∀ d ∈ [wait_random 200 400 (rand 1), wait_random 200 400 (rand 2)],
      200 ≤ d ∧ d ≤ 400) ∧
    (∀ a : α, (read_url_to_string action rand).1 ≠ .ok a) := by
  have hbound : ∀ r : Nat, 200 ≤ wait_random 200 400 r ∧ wait_random 200 400 r ≤ 400 := by
    intro r
    have : r % (400 - 200 + 1) < 400 - 200 + 1 := Nat.mod_lt _ (by omega)
    unfold wait_random
    omega
  have hrun : read_url_to_string action rand =
      (.error (errs 3), 3,
        [wait_random 200 400 (rand 1), wait_random 200 400 (rand 2)]) := by
    simp [read_url_to_string, retry_run, hfail]
  refine ⟨hrun, ?_, ?_⟩
  · intro d hd
    simp only [List.mem_cons, List.not_mem_nil, or_false] at hd
    rcases hd with h | h
    · exact h ▸ hbound (rand 1)
    · exact h ▸ hbound (rand 2)
  · intro a
    rw [hrun]
    simp

/-- Witness for C2: an action failing with its attempt index on every try
yields the error of attempt 3 after 3 attempts with 2 in-range delays. -/
theorem read_url_exhausts_after_three_witness :
    read_url_to_string (fun i => (.error i : Except Nat String)) (fun n => 1000 + n) =
      (.error 3, 3, [397, 398]) ∧
    (∀ d ∈ [(397 : Nat), 398], 200 ≤ d ∧ d ≤ 400) := by
  have h := read_url_exhausts_after_three (α := String) (fun i => i) (fun n => 1000 + n)
    (fun i => .error i) (fun _ => rfl)
  refine ⟨?_, ?_⟩
  · have := h.1
    simpa [wait_random] using this
  · intro d hd
    simp only [List.mem_cons, List.not_mem_nil, or_false] at hd
    rcases hd with h1 | h1 <;> omega

/-! ## C3 : period remap after the reverse-chronological scan -/

theorem scanRowEop_period_le (game : Game) (st : ScanState) (row : List String)
    (st1 : ScanState) (h : scanRowEop game st row = some st1) :
    st1.period ≤ st.period := by
  unfold scanRowEop at h
  split at h
  · split at h
    · cases h
      simp
    · cases h
  · cases h
    simp

theorem scanRowPlay_period_eq (game : Game) (st1 : ScanState) (row : List String)
    (st' : ScanState) (h : scanRowPlay game st1 row = some st') :
    st'.period = st1.period := by
  unfold scanRowPlay at h
  split at h
  · cases h
    rfl
  · split at h
    · cases h
    · split at h
      · cases h
        rfl
      · cases h
        rfl

theorem scanRow_period_le (game : Game) (st : ScanState) (row : List String)
    (st' : ScanState) (h : scanRow game st row = some st') :
    st'.period ≤ st.period := by
  unfold scanRow at h
  cases h1 : scanRowEop game st row with
  | none => rw [h1] at h; cases h
  | some st1 =>
      rw [h1] at h
      have := scanRowPlay_period_eq game st1 row st' h
      have := scanRowEop_period_le game st row st1 h1
      omega

theorem scanRowsFrom_period_le (game : Game) (rows : List (List String)) :
    ∀ st₀ st, scanRowsFrom game st₀ rows = some st → st.period ≤ st₀.period := by
  induction rows with
  | nil =>
      intro st₀ st h
      cases h
      exact le_refl _
  | cons row rest ih =>
      intro st₀ st h
      unfold scanRowsFrom at h
      cases h1 : scanRow game st₀ row with
      | none => rw [h1] at h; cases h
      | some st1 =>
          rw [h1] at h
          exact le_trans (ih st1 st h) (scanRow_period_le game st₀ row st1 h1)

/-- C3: whenever the scan of a page's rows finishes in state `st`, the final
period counter is non-positive, the parser's output is the scanned events in
reversed (oldest-first) order with every event's period — the synthetic
end-of-period events included — increased by `1 - st.period`, and an event
carrying the most negative counter `st.period` is mapped to period 1. -/
theorem parse_period_remap (game : Game) (rows : List (List String)) (st : ScanState)
    (h : scanRows game rows = some st) :
    st.period ≤ 0 ∧
    parsePlayByPlay game rows = some (st.result.reverse.map (bumpPeriod (1 - st.period))) ∧
    (∀ p ∈ st.result, p.hockey_time.period = st.period →
      (bumpPeriod (1 - st.period) p).hockey_time.period = 1) := by
  refine ⟨?_, ?_, ?_⟩
  · have h' : scanRowsFrom game ⟨false, 0, []⟩ rows = some st := h
    have := scanRowsFrom_period_le game rows ⟨false, 0, []⟩ st h'
    simpa using this
  · simp [parsePlayByPlay, h, remapLoop_eq]
  · intro p _ hp
    simp [bumpPeriod, hp]

/-- Witness for C3: the scan of `rowsEx` ends with counter `−2` and the
parsed output is the three scanned events reversed with periods `1, 2, 2`. -/
theorem parse_period_remap_witness :
    scanRows gEx rowsEx =
      some ⟨true, -2,
        [⟨gEx, ⟨-1, 1200⟩, .end_of_period, none⟩,
         ⟨gEx, ⟨-1, 1140⟩, .shot, some "TOR"⟩,
         ⟨gEx, ⟨-2, 1200⟩, .end_of_period, none⟩]⟩ ∧
    parsePlayByPlay gEx rowsEx =
      some ([⟨gEx, ⟨-1, 1200⟩, .end_of_period, none⟩,
             ⟨gEx, ⟨-1, 1140⟩, .shot, some "TOR"⟩,
             ⟨gEx, ⟨-2, 1200⟩, .end_of_period, none⟩].reverse.map (bumpPeriod (1 - (-2)))) := by
  have hscan : scanRows gEx rowsEx =
      some ⟨true, -2,
        [⟨gEx, ⟨-1, 1200⟩, .end_of_period, none⟩,
         ⟨gEx, ⟨-1, 1140⟩, .shot, some "TOR"⟩,
         ⟨gEx, ⟨-2, 1200⟩, .end_of_period, none⟩]⟩ := by decide
  have h := parse_period_remap gEx rowsEx _ hscan
  exact ⟨hscan, h.2.1⟩

/-! ## C6 : classification precedence -/

/-- C6: the description cell of a 5-cell row reached after the scan has
started is classified by substring checks in precedence order —
case-sensitive `GOAL`, then case-insensitive `faceoff`, then
case-insensitive `shot` — a row matching none emits no event, and a
description containing both `GOAL` and `shot` classifies as Goal.  The last
conjunct ties this to the row loop: such a row appends exactly the event
dictated by the classification, with the team read from cell 2. -/
theorem classify_precedence :
    (∀ desc, strContains desc "GOAL" = true → classify desc = some .goal) ∧
    (∀ desc, strContains desc "GOAL" = false →
      strContains (pyLower desc) "faceoff" = true → classify desc = some .face_off) ∧
    (∀ desc, strContains desc "GOAL" = false →
      strContains (pyLower desc) "faceoff" = false →
      strContains (pyLower desc) "shot" = true → classify desc = some .shot) ∧
    (∀ desc, strContains desc "GOAL" = false →
      strContains (pyLower desc) "faceoff" = false →
      strContains (pyLower desc) "shot" = false → classify desc = none) ∧
    classify "GOAL scored on shot" = some .goal ∧
    (∀ (game : Game) (st : ScanState) (row : List String) (ht : HockeyTime),
      st.started = true → row.length = 5 →
      HockeyTime.from_str st.period (row.getD 3 "") = some ht →
      scanRowPlay game st row =
        some { st with result := st.result ++
          (match classify (row.getD 4 "") with
           | some t => [{ game := game, hockey_time := ht, type := t,
                          team := some (row.getD 2 "") }]
           | none => []) }) := by
  refine ⟨fun desc h1 => ?_, fun desc h1 h2 => ?_, fun desc h1 h2 h3 => ?_,
    fun desc h1 h2 h3 => ?_, ?_, fun game st row ht hstart hlen hht => ?_⟩
  · simp [classify, h1]
  · simp [classify, h1, h2]
  · simp [classify, h1, h2, h3]
  · simp [classify, h1, h2, h3]
  · decide
  · unfold scanRowPlay
    rw [if_neg (by simp [hstart, hlen])]
    rw [hht]
    cases hc : classify (row.getD 4 "") <;> simp

/-- Witness for C6: at concrete descriptions the GOAL check wins over the
shot check, and the concrete shot row of `rowsEx` appends a Shot event with
team `TOR`. -/
theorem classify_precedence_witness :
    classify "GOAL scored on shot" = some .goal ∧
    classify "Faceoff won" = some .face_off ∧
    classify "penalty" = none ∧
    scanRowPlay gEx ⟨true, -1, []⟩ ["a", "b", "TOR", "19:00", "Shot on goal"] =
      some ⟨true, -1, [⟨gEx, ⟨-1, 1140⟩, .shot, some "TOR"⟩]⟩ := by
  refine ⟨classify_precedence.2.2.2.2.1, ?_, ?_, ?_⟩
  · exact classify_precedence.2.1 "Faceoff won" (by decide) (by decide)
  · exact classify_precedence.2.2.2.1 "penalty" (by decide) (by decide) (by decide)
  · have h := classify_precedence.2.2.2.2.2 gEx ⟨true, -1, []⟩
      ["a", "b", "TOR", "19:00", "Shot on goal"] ⟨-1, 1140⟩ rfl (by decide) (by decide)
    rw [h]
    decide

/-! ## C7 : clock parsing and whole-page abort -/

theorem scanRowsFrom_append_none (game : Game) (rows₁ rows₂ : List (List String)) :
    ∀ st, scanRowsFrom game st rows₁ = none →
      scanRowsFrom game st (rows₁ ++ rows₂) = none := by
  induction rows₁ with
  | nil => intro st h; cases h
  | cons row rest ih =>
      intro st h
      rw [List.cons_append]
      unfold scanRowsFrom at h ⊢
      cases h1 : scanRow game st row with
      | none => rfl
      | some st1 =>
          rw [h1] at h
          exact ih st1 h

theorem from_str_not_colon (p : Int) (clock : String)
    (h1 : (pySplit clock ':').length ≠ 2) :
    HockeyTime.from_str p clock =
      match pySplit clock '.' with
      | [sec, _frac] => do
          let s ← pyInt sec
          some ⟨p, 0 * 60 + s⟩
      | _ => none := by
  unfold HockeyTime.from_str
  rcases hc : pySplit clock ':' with _ | ⟨a, _ | ⟨b, _ | _⟩⟩
  · rfl
  · rfl
  · exact absurd (by simp [hc]) h1
  · rfl

/-- C7: a clock string splitting at `:` into two numeric fields parses to
`MM*60+SS` seconds of the period; one not splitting into two `:`-fields but
splitting at `.` into two parts with a numeric first field truncates to
`SS`; every other clock string — non-numeric fields included — makes
`HockeyTime.from_str` fail, that failure makes the whole row scan and hence
the page parse fail, and a failed parse leaves the cache untouched: nothing
partial is returned or written. -/
theorem from_str_forms_and_abort :
    (∀ (p : Int) (clock m s : String) (mi si : Int),
      pySplit clock ':' = [m, s] → pyInt m = some mi → pyInt s = some si →
      HockeyTime.from_str p clock = some ⟨p, mi * 60 + si⟩) ∧
    (∀ (p : Int) (clock s f : String) (si : Int),
      (pySplit clock ':').length ≠ 2 → pySplit clock '.' = [s, f] →
      pyInt s = some si → HockeyTime.from_str p clock = some ⟨p, si⟩) ∧
    (∀ (p : Int) (clock m s : String),
      pySplit clock ':' = [m, s] → (pyInt m = none ∨ pyInt s = none) →
      HockeyTime.from_str p clock = none) ∧
    (∀ (p : Int) (clock s f : String),
      (pySplit clock ':').length ≠ 2 → pySplit clock '.' = [s, f] →
      pyInt s = none → HockeyTime.from_str p clock = none) ∧
    (∀ (p : Int) (clock : String),
      (pySplit clock ':').length ≠ 2 → (pySplit clock '.').length ≠ 2 →
      HockeyTime.from_str p clock = none) ∧
    (∀ (game : Game) (st : ScanState) (row : List String),
      st.started = true → row.length = 5 →
      HockeyTime.from_str st.period (row.getD 3 "") = none →
      scanRowPlay game st row = none) ∧
    (∀ (game : Game) (st : ScanState) (row : List String) (rows₂ : List (List String)),
      scanRow game st row = none →
      scanRowsFrom game st (row :: rows₂) = none) ∧
    (∀ (game : Game) (rows : List (List String)),
      scanRows game rows = none → parsePlayByPlay game rows = none) ∧
    (∀ (dataDir : String) (game : Game) (rows : List (List String)) (store : Store GameData),
      parsePlayByPlay game rows = none →
      try_to_read dataDir store (Game.str game) = none →
      load_game_data dataDir game rows store = (.error .malformedTime, store, 1)) := by
  refine ⟨fun p clock m s mi si h1 h2 h3 => ?_, fun p clock s f si h1 h2 h3 => ?_,
    fun p clock m s h1 h2 => ?_, fun p clock s f h1 h2 h3 => ?_,
    fun p clock h1 h2 => ?_, fun game st row h1 h2 h3 => ?_,
    fun game st row rows₂ h1 => ?_, fun game rows h1 => ?_,
    fun dataDir game rows store h1 h2 => ?_⟩
  · simp [HockeyTime.from_str, h1, h2, h3]
  · rw [from_str_not_colon p clock h1, h2]
    simp [h3]
  · unfold HockeyTime.from_str
    rw [h1]
    rcases h2 with h2 | h2
    · simp [h2]
    · cases hm : pyInt m <;> simp [hm, h2]
  · rw [from_str_not_colon p clock h1, h2]
    simp [h3]
  · rw [from_str_not_colon p clock h1]
    rcases hd : pySplit clock '.' with _ | ⟨a, _ | ⟨b, _ | _⟩⟩
    · rfl
    · rfl
    · exact absurd (by simp [hd]) h2
    · rfl
  · unfold scanRowPlay
    rw [if_neg (by simp [h1, h2])]
    rw [h3]
  · unfold scanRowsFrom
    rw [h1]
  · unfold parsePlayByPlay
    rw [h1]
  · simp [load_game_data, memoizeExc, BasicCacher, h2, load_game_data_online, h1]

/-- Witness for C7 at concrete clock strings: `20:00` is 1200 s, `59.9`
truncates to 59 s, `bad clock` parses to nothing, and with `rowsBad` the
whole page parse fails and an untouched empty cache stays untouched. -/
theorem from_str_forms_and_abort_witness :
    HockeyTime.from_str 2 "20:00" = some ⟨2, 1200⟩ ∧
    HockeyTime.from_str 1 "59.9" = some ⟨1, 59⟩ ∧
    HockeyTime.from_str 1 "bad clock" = none ∧
    load_game_data "data" gEx rowsBad (fun _ => none) =
      (.error .malformedTime, fun _ => none, 1) := by
  refine ⟨?_, ?_, ?_, ?_⟩
  · have h := from_str_forms_and_abort.1 2 "20:00" "20" "00" 20 0
      (by decide) (by decide) (by decide)
    exact h.trans (by decide)
  · exact from_str_forms_and_abort.2.1 1 "59.9" "59" "9" 59
      (by decide) (by decide) (by decide)
  · exact from_str_forms_and_abort.2.2.2.2.1 1 "bad clock" (by decide) (by decide)
  · exact from_str_forms_and_abort.2.2.2.2.2.2.2.2 "data" gEx rowsBad
      (fun _ => none) (by decide) rfl

/-! ## C4 / C10 : derived statistics and their KeyError -/

theorem dictIncr_eq_none (d : List (Option Team × Nat)) (k : Option Team) :
    dictIncr d k = none ↔ dictGet d k = none := by
  induction d with
  | nil => simp [dictIncr, dictGet]
  | cons e rest ih =>
      obtain ⟨k0, v⟩ := e
      by_cases hk : k0 = k
      · simp [dictIncr, dictGet, hk]
      · simp [dictIncr, dictGet, hk, Option.map_eq_none', ih]

theorem dictGet_cons (k0 : Option Team) (v : Nat) (rest : List (Option Team × Nat))
    (k' : Option Team) :
    dictGet ((k0, v) :: rest) k' = if k0 = k' then some v else dictGet rest k' := rfl

theorem dictGet_incr (d : List (Option Team × Nat)) (k : Option Team)
    (d' : List (Option Team × Nat)) (h : dictIncr d k = some d') (k' : Option Team) :
    dictGet d' k' = if k' = k then (dictGet d k).map (· + 1) else dictGet d k' := by
  induction d generalizing d' with
  | nil => cases h
  | cons e rest ih =>
      obtain ⟨k0, v⟩ := e
      by_cases hk : k0 = k
      · rw [dictIncr, if_pos hk] at h
        cases h
        subst hk
        by_cases hk' : k' = k0
        · subst hk'
          simp [dictGet_cons]
        · have h0 : ¬ k0 = k' := fun he => hk' he.symm
          simp [dictGet_cons, hk', h0]
      · rw [dictIncr, if_neg hk] at h
        cases hr : dictIncr rest k with
        | none => rw [hr] at h; cases h
        | some rest' =>
            rw [hr] at h
            simp only [Option.map_some'] at h
            cases h
            by_cases hk0' : k0 = k'
            · have hkk' : ¬ k' = k := fun he => hk (hk0'.trans he)
              rw [dictGet_cons, if_pos hk0', if_neg hkk', dictGet_cons, if_pos hk0']
            · rw [dictGet_cons, if_neg hk0', ih rest' hr]
              by_cases hke : k' = k
              · rw [if_pos hke, if_pos hke, dictGet_cons, if_neg (hke ▸ hk)]
              · rw [if_neg hke, if_neg hke, dictGet_cons, if_neg hk0']

theorem countTeam_cons (p : Play) (rest : List Play) (types : List PlayType)
    (k : Option Team) :
    countTeam (p :: rest) types k =
      (if p.type ∈ types ∧ p.team = k then 1 else 0) + countTeam rest types k := by
  by_cases hc : p.type ∈ types ∧ p.team = k <;>
    simp [countTeam, List.filter_cons, hc]
  omega

theorem countLoop_spec (types : List PlayType) (pbp : List Play) :
    ∀ (d : List (Option Team × Nat)),
      (∀ p ∈ pbp, p.type ∈ types → dictGet d p.team ≠ none) →
      ∃ d', countLoop types d pbp = some d' ∧
        ∀ k, dictGet d' k = (dictGet d k).map (· + countTeam pbp types k) := by
  induction pbp with
  | nil =>
      intro d _
      refine ⟨d, rfl, fun k => ?_⟩
      cases dictGet d k <;> simp [countTeam]
  | cons p rest ih =>
      intro d h
      by_cases hp : p.type ∈ types
      · have hk : dictGet d p.team ≠ none := h p (List.mem_cons_self p rest) hp
        obtain ⟨d1, hd1⟩ : ∃ d1, dictIncr d p.team = some d1 := by
          cases hi : dictIncr d p.team with
          | none => exact absurd ((dictIncr_eq_none d p.team).mp hi) hk
          | some d1 => exact ⟨d1, rfl⟩
        have hrest : ∀ q ∈ rest, q.type ∈ types → dictGet d1 q.team ≠ none := by
          intro q hq hqt
          have h2 := h q (List.mem_cons_of_mem p hq) hqt
          rw [dictGet_incr d p.team d1 hd1 q.team]
          split_ifs with he
          · simpa [Option.map_eq_none'] using hk
          · exact h2
        obtain ⟨d', hloop, hget⟩ := ih d1 hrest
        refine ⟨d', ?_, fun k => ?_⟩
        · unfold countLoop
          rw [if_pos hp, hd1]
          exact hloop
        · rw [hget k, dictGet_incr d p.team d1 hd1 k, countTeam_cons]
          by_cases hke : k = p.team
          · rw [if_pos hke, if_pos ⟨hp, hke.symm⟩, hke]
            cases dictGet d p.team <;> simp
            omega
          · rw [if_neg hke, if_neg (fun hc => hke hc.2.symm)]
            simp
      · have hrest : ∀ q ∈ rest, q.type ∈ types → dictGet d q.team ≠ none :=
          fun q hq hqt => h q (List.mem_cons_of_mem p hq) hqt
        obtain ⟨d', hloop, hget⟩ := ih d hrest
        refine ⟨d', ?_, fun k => ?_⟩
        · unfold countLoop
          rw [if_neg hp]
          exact hloop
        · rw [hget k, countTeam_cons, if_neg (fun hc => hp hc.1)]
          simp

theorem countLoop_none (types : List PlayType) (pbp : List Play) :
    ∀ (d : List (Option Team × Nat)),
      (∃ p ∈ pbp, p.type ∈ types ∧ dictGet d p.team = none) →
      countLoop types d pbp = none := by
  induction pbp with
  | nil =>
      rintro d ⟨p, hp, -⟩
      cases hp
  | cons p rest ih =>
      rintro d ⟨q, hq, hqt, hqn⟩
      rcases List.mem_cons.mp hq with rfl | hq'
      · have hki : dictIncr d q.team = none := (dictIncr_eq_none d q.team).mpr hqn
        unfold countLoop
        rw [if_pos hqt, hki]
      · by_cases hp : p.type ∈ types
        · cases hi : dictIncr d p.team with
          | none =>
              unfold countLoop
              rw [if_pos hp, hi]
          | some d1 =>
              have hq1 : dictGet d1 q.team = none := by
                rw [dictGet_incr d p.team d1 hi q.team]
                split_ifs with he
                · rw [he] at hqn
                  simp [hqn]
                · exact hqn
              unfold countLoop
              rw [if_pos hp, hi]
              exact ih d1 ⟨q, hq', hqt, hq1⟩
        · unfold countLoop
          rw [if_neg hp]
          exact ih d ⟨q, hq', hqt, hqn⟩

/-- C4: for a record whose counted events all carry one of the game's two
team codes, construction succeeds and the derived values are exactly the
per-team counts — attempts over Shot+Goal events, scores over Goal events —
the winner is the strictly higher-scoring team and `None` on a tie, and the
`winner` accessor returns the value computed at construction; all of these
are functions of the event list alone. -/
theorem gameData_derived_stats (game : Game) (pbp : List Play)
    (hvalid : ∀ p ∈ pbp, (p.type = .shot ∨ p.type = .goal) →
      (p.team = some game.away ∨ p.team = some game.home)) :
    ∃ gd, GameData.init game pbp = some gd ∧
      gd.away_att = countTeam pbp [.shot, .goal] (some game.away) ∧
      gd.home_att = countTeam pbp [.shot, .goal] (some game.home) ∧
      gd.away_score = countTeam pbp [.goal] (some game.away) ∧
      gd.home_score = countTeam pbp [.goal] (some game.home) ∧
      (gd.away_score < gd.home_score → gd.winner = some game.home) ∧
      (gd.home_score < gd.away_score → gd.winner = some game.away) ∧
      (gd.away_score = gd.home_score → gd.winner = none ∧ gd.tie = true) ∧
      gd.winnerProp = gd.winner := by
  have hget0A : dictGet [(some game.away, 0), (some game.home, 0)] (some game.away) =
      some 0 := by
    rw [dictGet_cons, if_pos rfl]
  have hget0H : dictGet [(some game.away, 0), (some game.home, 0)] (some game.home) =
      some 0 := by
    by_cases h : some game.away = some game.home
    · rw [dictGet_cons, if_pos h]
    · rw [dictGet_cons, if_neg h, dictGet_cons, if_pos rfl]
  have hval1 : ∀ p ∈ pbp, p.type ∈ [PlayType.shot, PlayType.goal] →
      dictGet [(some game.away, 0), (some game.home, 0)] p.team ≠ none := by
    intro p hp ht
    rcases hvalid p hp (by simpa using ht) with h | h <;> rw [h]
    · rw [hget0A]; exact Option.some_ne_none 0
    · rw [hget0H]; exact Option.some_ne_none 0
  have hval2 : ∀ p ∈ pbp, p.type ∈ [PlayType.goal] →
      dictGet [(some game.away, 0), (some game.home, 0)] p.team ≠ none := by
    intro p hp ht
    refine hval1 p hp ?_
    simp only [List.mem_singleton] at ht
    simp [ht]
  obtain ⟨datt, hdatt, hgatt⟩ := countLoop_spec [.shot, .goal] pbp _ hval1
  obtain ⟨dsc, hdsc, hgsc⟩ := countLoop_spec [.goal] pbp _ hval2
  have hA : dictGet datt (some game.away) =
      some (countTeam pbp [.shot, .goal] (some game.away)) := by
    rw [hgatt, hget0A]
    simp
  have hH : dictGet datt (some game.home) =
      some (countTeam pbp [.shot, .goal] (some game.home)) := by
    rw [hgatt, hget0H]
    simp
  have hSA : dictGet dsc (some game.away) =
      some (countTeam pbp [.goal] (some game.away)) := by
    rw [hgsc, hget0A]
    simp
  have hSH : dictGet dsc (some game.home) =
      some (countTeam pbp [.goal] (some game.home)) := by
    rw [hgsc, hget0H]
    simp
  have hinit : GameData.init game pbp = some
      { game := game, pbp := pbp,
        away_att := countTeam pbp [.shot, .goal] (some game.away),
        home_att := countTeam pbp [.shot, .goal] (some game.home),
        away_score := countTeam pbp [.goal] (some game.away),
        home_score := countTeam pbp [.goal] (some game.home),
        winner :=
          if countTeam pbp [.goal] (some game.away) <
              countTeam pbp [.goal] (some game.home) then some game.home
          else if countTeam pbp [.goal] (some game.home) <
              countTeam pbp [.goal] (some game.away) then some game.away
          else none,
        tie :=
          if countTeam pbp [.goal] (some game.away) <
              countTeam pbp [.goal] (some game.home) then false
          else if countTeam pbp [.goal] (some game.home) <
              countTeam pbp [.goal] (some game.away) then false
          else true } := by
    unfold GameData.init count_plays_by_team
    rw [hdatt, hdsc]
    simp [hA, hH, hSA, hSH]
  refine ⟨_, hinit, rfl, rfl, rfl, rfl, ?_, ?_, ?_, rfl⟩
  · intro hlt
    simp only at hlt ⊢
    rw [if_pos hlt]
  · intro hlt
    simp only at hlt ⊢
    rw [if_neg (by omega), if_pos hlt]
  · intro heq
    simp only at heq ⊢
    constructor
    · rw [if_neg (by omega), if_neg (by omega)]
    · rw [if_neg (by omega), if_neg (by omega)]

/-- Witness for C4: the spec's concrete record
`[Goal(A), Shot(A), Goal(B), FaceOff(B)]` for away team `A` and home team
`B` gives attempts 2/1, scores 1/1 and no winner. -/
theorem gameData_derived_stats_witness :
    ∃ gd, GameData.init gEx pbpEx = some gd ∧
      gd.away_att = 2 ∧ gd.home_att = 1 ∧
      gd.away_score = 1 ∧ gd.home_score = 1 ∧ gd.winner = none := by
  obtain ⟨gd, hinit, h1, h2, h3, h4, -, -, h7, -⟩ :=
    gameData_derived_stats gEx pbpEx (by decide)
  have hscore : gd.away_score = gd.home_score := by
    rw [h3, h4]
    decide
  refine ⟨gd, hinit, ?_, ?_, ?_, ?_, (h7 hscore).1⟩
  · rw [h1]; decide
  · rw [h2]; decide
  · rw [h3]; decide
  · rw [h4]; decide

/-- C10: constructing a `GameData` fails with a `KeyError` as soon as the
event list contains a Shot or Goal event whose team — possibly `None` — is
neither the game's away code nor its home code: the counting dict only
pre-populates the two team codes and increments by raw lookup. -/
theorem gameData_init_keyError (game : Game) (pbp : List Play) (p : Play)
    (hp : p ∈ pbp) (htype : p.type = .shot ∨ p.type = .goal)
    (haway : p.team ≠ some game.away) (hhome : p.team ≠ some game.home) :
    GameData.init game pbp = none := by
  have hget : dictGet [(some game.away, 0), (some game.home, 0)] p.team = none := by
    rw [dictGet_cons, if_neg (fun h => haway h.symm),
      dictGet_cons, if_neg (fun h => hhome h.symm)]
    rfl
  have hcount : count_plays_by_team game pbp [.shot, .goal] = none := by
    unfold count_plays_by_team
    exact countLoop_none [.shot, .goal] pbp _ ⟨p, hp, by simpa using htype, hget⟩
  unfold GameData.init
  rw [hcount]
  rfl

/-- Witness for C10: a single Goal event with no team (as end-of-period
events are stored) makes construction fail. -/
theorem gameData_init_keyError_witness :
    GameData.init gEx [⟨gEx, ⟨1, 10⟩, .goal, none⟩] = none :=
  gameData_init_keyError gEx [⟨gEx, ⟨1, 10⟩, .goal, none⟩]
    ⟨gEx, ⟨1, 10⟩, .goal, none⟩ (List.mem_singleton.mpr rfl)
    (Or.inr rfl) (by decide) (by decide)

/-! ## C8 : deterministic dataset split -/

theorem oneMinus_eq (t : ℚ) : oneMinus t = 1 - t := by
  have hd : ((t.den : ℚ)) ≠ 0 := by
    exact_mod_cast t.den_nz
  rw [oneMinus, Rat.mkRat_eq_div]
  push_cast
  rw [sub_div, Rat.num_div_den, div_self hd]

theorem exactMul_eq (x y : ℚ) : exactMul x y = x * y := by
  rw [exactMul, Rat.mkRat_eq_div]
  push_cast
  conv_rhs => rw [← Rat.num_div_den x, ← Rat.num_div_den y]
  rw [div_mul_div_comm]

theorem pyTrunc_eq_floor (q : ℚ) (h : 0 ≤ q) : pyTrunc q = q.floor := by
  rw [pyTrunc, Int.tdiv_eq_ediv (Rat.num_nonneg.mpr h) (Int.natCast_nonneg _)]
  exact (Rat.floor_def' q).symm

/-- C8, amended: for a binary64 fraction strictly between 0 and 1,
`make_dataset` resolves the season's ordered game list and splits it with
no randomness: train is the first `float_cutoff n t` games — the cutoff
`int(n * (1.0 - t))` of the program's double arithmetic — test the
remaining suffix, and any prefix/suffix pair at one index recombines to the
untouched list.  For a fraction not strictly between 0 and 1 it fails with
the assertion before the game list is resolved: the I/O state comes back
unchanged. -/
theorem make_dataset_float_split {σ : Type} (getGames : σ → σ × List Game) (t : ℚ)
    (s : σ) (_hrep : roundDouble t = t) :
    (0 < t → t < 1 →
      make_dataset getGames t s =
        ((getGames s).1,
         .ok { train := (getGames s).2.take (float_cutoff (getGames s).2.length t),
               test := (getGames s).2.drop (float_cutoff (getGames s).2.length t) })) ∧
    (∀ c : Nat, (getGames s).2.take c ++ (getGames s).2.drop c = (getGames s).2) ∧
    (¬ (0 < t ∧ t < 1) → make_dataset getGames t s = (s, .error ())) := by
  refine ⟨fun h1 h2 => ?_, fun c => List.take_append_drop c _, fun h => ?_⟩
  · unfold make_dataset
    rw [if_pos ⟨h1, h2⟩]
  · unfold make_dataset
    rw [if_neg h]

/-- Witness for C8 at the double nearest `0.2` with ten ordered games: the
double arithmetic happens to land on cutoff 8, so train is the first 8 and
test the last 2, with one resolver call made; the representable fraction
`1.5` fails with the resolver never called (counter still 0). -/
theorem make_dataset_float_split_witness :
    make_dataset getGames10 t02 0 =
      (1, .ok { train := games10.take 8, test := games10.drop 8 }) ∧
    make_dataset getGames10 (mkRat 3 2) 0 = (0, .error ()) := by
  constructor
  · have h := (make_dataset_float_split getGames10 t02 0 (by decide)).1
      (by decide) (by decide)
    have hc : float_cutoff (getGames10 0).2.length t02 = 8 := by decide
    rw [h, hc]
    rfl
  · exact (make_dataset_float_split getGames10 (mkRat 3 2) 0 (by decide)).2.2
      (by decide)

/-- C8 counterexample: the claim's cutoff `⌊n·(1−testFraction)⌋` fails on
the code's double arithmetic.  For the user fraction `0.8` — whose binary64
representation is `t08 = roundDouble (4/5)` — and 5 games, the program
computes `5 * (1.0 - 0.8) = 0.9999999999999998` and truncates to cutoff 0,
so train is empty, while the claim demands the first
`⌊5 · (1 − 4/5)⌋ = 1` game. -/
theorem make_dataset_float_counterexample :
    roundDouble (4/5) = t08 ∧
    make_dataset getGames5 t08 0 = (1, .ok { train := [], test := games5 }) ∧
    games5.take (((games5.length : ℚ) * (1 - 4/5)).floor.toNat) ≠ [] := by
  refine ⟨?_, ?_, ?_⟩
  · have h45 : (4/5 : ℚ) = mkRat 4 5 := by
      rw [Rat.mkRat_eq_div]
      norm_num
    rw [h45]
    decide
  · decide
  · have hlen : games5.length = 5 := rfl
    have hc : (((games5.length : ℚ) * (1 - 4/5)).floor.toNat) = 1 := by
      rw [hlen]
      norm_num
      decide
    rw [hc]
    decide

end SimpleNhl
